import Mathlib

/-!
Verification of the plan-execution engine of the Multi-Agent retail system.

The Python source operates on JSON-like dictionaries; we embed those values
as the inductive type `JVal` and translate the validator
(`app/executor/validator.py`), the governance guardrails
(`app/llm/governance.py`), the runner (`app/executor/runner.py`) and the
session store bounding (`app/tools/session.py`) as executable Lean
functions over `JVal`.  External collaborators (the LLM repair call, the
SQLite product lookup, the tool bodies) are parameters (oracles) of the
embedded functions, exactly as the spec treats them.  A Python crash
(uncaught TypeError/AttributeError on pathological inputs) is modelled by
returning `none` from the embedding.
-/

namespace MAS

/-- JSON-like values, the shape of the Python dictionaries the engine
manipulates. -/
inductive JVal where
  | str : String → JVal
  | bool : Bool → JVal
  | num : Int → JVal
  | arr : List JVal → JVal
  | obj : List (String × JVal) → JVal
  | null : JVal
deriving Repr

mutual

/-- Decidable equality for `JVal` (handwritten because of the nested lists). -/
def JVal.beq : JVal → JVal → Bool
  | .str a, .str b => a == b
  | .bool a, .bool b => a == b
  | .num a, .num b => a == b
  | .arr a, .arr b => JVal.beqList a b
  | .obj a, .obj b => JVal.beqObj a b
  | .null, .null => true
  | _, _ => false

def JVal.beqList : List JVal → List JVal → Bool
  | [], [] => true
  | a :: as, b :: bs => JVal.beq a b && JVal.beqList as bs
  | _, _ => false

def JVal.beqObj : List (String × JVal) → List (String × JVal) → Bool
  | [], [] => true
  | (ka, va) :: as, (kb, vb) :: bs => ka == kb && JVal.beq va vb && JVal.beqObj as bs
  | _, _ => false

end

mutual

theorem JVal.beq_refl : (a : JVal) → JVal.beq a a = true
  | .str _ => by simp [JVal.beq]
  | .bool _ => by simp [JVal.beq]
  | .num _ => by simp [JVal.beq]
  | .arr l => by simp [JVal.beq, JVal.beqList_refl l]
  | .obj l => by simp [JVal.beq, JVal.beqObj_refl l]
  | .null => by simp [JVal.beq]

theorem JVal.beqList_refl : (l : List JVal) → JVal.beqList l l = true
  | [] => by simp [JVal.beqList]
  | a :: as => by simp [JVal.beqList, JVal.beq_refl a, JVal.beqList_refl as]

theorem JVal.beqObj_refl : (l : List (String × JVal)) → JVal.beqObj l l = true
  | [] => by simp [JVal.beqObj]
  | (k, v) :: as => by simp [JVal.beqObj, JVal.beq_refl v, JVal.beqObj_refl as]

end

mutual

theorem JVal.eq_of_beq : {a b : JVal} → JVal.beq a b = true → a = b
  | .str _, .str _, h => by simpa [JVal.beq] using congrArg JVal.str (by simpa [JVal.beq] using h)
  | .bool _, .bool _, h => by simpa [JVal.beq] using congrArg JVal.bool (by simpa [JVal.beq] using h)
  | .num _, .num _, h => by simpa [JVal.beq] using congrArg JVal.num (by simpa [JVal.beq] using h)
  | .arr a, .arr b, h => congrArg JVal.arr (JVal.eqList_of_beq (by simpa [JVal.beq] using h))
  | .obj a, .obj b, h => congrArg JVal.obj (JVal.eqObj_of_beq (by simpa [JVal.beq] using h))
  | .null, .null, _ => rfl

theorem JVal.eqList_of_beq : {a b : List JVal} → JVal.beqList a b = true → a = b
  | [], [], _ => rfl
  | x :: xs, y :: ys, h => by
      have h' : JVal.beq x y = true ∧ JVal.beqList xs ys = true := by
        simpa [JVal.beqList, Bool.and_eq_true] using h
      exact by rw [JVal.eq_of_beq h'.1, JVal.eqList_of_beq h'.2]

theorem JVal.eqObj_of_beq : {a b : List (String × JVal)} → JVal.beqObj a b = true → a = b
  | [], [], _ => rfl
  | (k, v) :: xs, (k', v') :: ys, h => by
      have h' : (k == k') = true ∧ JVal.beq v v' = true ∧ JVal.beqObj xs ys = true := by
        simpa [JVal.beqObj, Bool.and_eq_true, and_assoc] using h
      have hk : k = k' := by simpa using h'.1
      exact by rw [hk, JVal.eq_of_beq h'.2.1, JVal.eqObj_of_beq h'.2.2]

end

instance : DecidableEq JVal := fun a b =>
  if h : JVal.beq a b = true then
    isTrue (JVal.eq_of_beq h)
  else
    isFalse (fun he => h (he ▸ JVal.beq_refl a))

/-- Python `d[k]` lookup on a dict modelled as an ordered association list
(first binding wins). -/
def jLookup : List (String × JVal) → String → Option JVal
  | [], _ => none
  | (k', v) :: rest, k => if k' = k then some v else jLookup rest k

/-- Python `k in d`. -/
def jHasKey (m : List (String × JVal)) (k : String) : Bool :=
  (jLookup m k).isSome

/-- Python `d[k] = v`: replace the binding in place, else append. -/
def dictSet : List (String × JVal) → String → JVal → List (String × JVal)
  | [], k, v => [(k, v)]
  | (k', v') :: rest, k, v =>
      if k' = k then (k, v) :: rest else (k', v') :: dictSet rest k v

/-- Python `d.pop(k, None)`. -/
def dictRemove : List (String × JVal) → String → List (String × JVal)
  | [], _ => []
  | (k', v') :: rest, k =>
      if k' = k then rest else (k', v') :: dictRemove rest k

/-- Python truthiness of a JSON value. -/
def pyTruthy : JVal → Bool
  | .str s => s ≠ ""
  | .bool b => b
  | .num n => n ≠ 0
  | .arr l => l ≠ []
  | .obj l => l ≠ []
  | .null => false

/-- Python `len(v)`; `none` models a `TypeError` crash on unsized values. -/
def pyLen : JVal → Option Nat
  | .str s => some s.length
  | .arr l => some l.length
  | .obj l => some l.length
  | _ => none

/-- Python iteration `for x in v`; `none` models a `TypeError` crash.
Iterating a string yields its characters, iterating a dict yields its keys. -/
def pyIter : JVal → Option (List JVal)
  | .arr l => some l
  | .str s => some (s.toList.map (fun c => .str (String.mk [c])))
  | .obj l => some (l.map (fun kv => .str kv.1))
  | _ => none

/-- Python whitespace (the characters stripped/split by `str.strip()` and
`str.split()`). -/
def pyWS (c : Char) : Bool :=
  c = ' ' || c = '\t' || c = '\n' || c = '\r' || c = '\x0b' || c = '\x0c'

/-- ASCII lowercasing of one character (the engine only lowercases ASCII
keyword/identifier text). -/
def lowerChar (c : Char) : Char :=
  if 65 ≤ c.toNat ∧ c.toNat ≤ 90 then Char.ofNat (c.toNat + 32) else c

/-- Python `s.lower()`. -/
def pyLower (s : String) : String := String.mk (s.toList.map lowerChar)

/-- Python `s.strip()`. -/
def pyStrip (s : String) : String :=
  String.mk (((s.toList.dropWhile (fun c => pyWS c)).reverse.dropWhile
    (fun c => pyWS c)).reverse)

def charsIsPrefix : List Char → List Char → Bool
  | [], _ => true
  | _ :: _, [] => false
  | a :: as, b :: bs => a = b && charsIsPrefix as bs

def charsContains (needle : List Char) : List Char → Bool
  | [] => needle.isEmpty
  | c :: rest => charsIsPrefix needle (c :: rest) || charsContains needle rest

/-- Python `sub in s` substring containment. -/
def pyContains (s sub : String) : Bool :=
  charsContains sub.toList s.toList

/-- Python `s.startswith(pre)`. -/
def strStartsWith (s pre : String) : Bool :=
  charsIsPrefix pre.toList s.toList

/-- Python `s[n:]` for ASCII text. -/
def strDrop (s : String) (n : Nat) : String := String.mk (s.toList.drop n)

def splitWSAux : List Char → List Char → List String
  | [], acc => if acc.isEmpty then [] else [String.mk acc.reverse]
  | c :: rest, acc =>
      if pyWS c then
        if acc.isEmpty then splitWSAux rest []
        else String.mk acc.reverse :: splitWSAux rest []
      else splitWSAux rest (c :: acc)

/-- Python `str.split()` — split on whitespace runs, dropping empties. -/
def pySplitWS (s : String) : List String := splitWSAux s.toList []

def splitOnCharAux (sep : Char) : List Char → List (List Char)
  | [] => [[]]
  | c :: rest =>
      if c = sep then [] :: splitOnCharAux sep rest
      else
        match splitOnCharAux sep rest with
        | [] => [[c]]
        | t :: ts => (c :: t) :: ts

/-- Python `s.split(sep)` for a one-character separator. -/
def pySplitOnChar (sep : Char) (s : String) : List String :=
  (splitOnCharAux sep s.toList).map String.mk

/-- Python `int(s)` guarded by `s.isdigit()`: `none` unless `s` is a
non-empty all-digit string. -/
def pyToNat? (s : String) : Option Nat :=
  if !s.toList.isEmpty && s.toList.all (fun c => 48 ≤ c.toNat && c.toNat ≤ 57) then
    some (s.toList.foldl (fun n c => n * 10 + (c.toNat - 48)) 0)
  else none

mutual

/-- Python `repr` of a JSON value (used by `str` on containers). -/
def pyRepr : JVal → String
  | .str s => "\x27" ++ s ++ "\x27"
  | .bool b => if b then "True" else "False"
  | .num n => toString n
  | .arr l => "[" ++ String.intercalate ", " (pyReprList l) ++ "]"
  | .obj l => "\x7b" ++ String.intercalate ", " (pyReprObj l) ++ "\x7d"
  | .null => "None"

def pyReprList : List JVal → List String
  | [] => []
  | v :: rest => pyRepr v :: pyReprList rest

def pyReprObj : List (String × JVal) → List String
  | [] => []
  | (k, v) :: rest => ("\x27" ++ k ++ "\x27: " ++ pyRepr v) :: pyReprObj rest

end

/-- Python `str(v)`. -/
def pyStr : JVal → String
  | .str s => s
  | .bool b => if b then "True" else "False"
  | .num n => toString n
  | .null => "None"
  | v => pyRepr v

instance : BEq JVal := ⟨JVal.beq⟩

instance : LawfulBEq JVal where
  eq_of_beq := JVal.eq_of_beq
  rfl := JVal.beq_refl _

/-- `AVAILABLE_TOOLS` from `app/config.py` (a Python set; listed in source
order). -/
def AVAILABLE_TOOLS : List String :=
  ["get_session_context", "save_session_context", "get_user_profile",
   "update_user_name", "check_inventory", "recommend_products",
   "apply_offers", "calculate_payment", "get_fulfillment_options",
   "log_execution_trace"]

/-- `sorted(AVAILABLE_TOOLS)`, used in the invalid-action error message. -/
def AVAILABLE_TOOLS_SORTED : List String :=
  ["apply_offers", "calculate_payment", "check_inventory",
   "get_fulfillment_options", "get_session_context", "get_user_profile",
   "log_execution_trace", "recommend_products", "save_session_context",
   "update_user_name"]

/-- `TOOL_PARAM_REQUIREMENTS` from `app/tools/tool_specs.py`
(`.get(action, set())` semantics: unknown action maps to the empty set). -/
def TOOL_PARAM_REQUIREMENTS (action : String) : List String :=
  if action = "get_session_context" then ["user_id", "session_id"]
  else if action = "save_session_context" then ["user_id", "session_id", "context"]
  else if action = "get_user_profile" then ["user_id"]
  else if action = "update_user_name" then ["user_id", "name"]
  else if action = "check_inventory" then ["sku"]
  else if action = "recommend_products" then ["category"]
  else if action = "apply_offers" then ["cart", "loyalty_tier"]
  else if action = "calculate_payment" then ["cart", "discounts"]
  else if action = "get_fulfillment_options" then ["location"]
  else if action = "log_execution_trace" then ["trace"]
  else []

/-- Python `action in AVAILABLE_TOOLS` where `action` is an arbitrary value:
only equal to a member when it is one of the catalog strings. -/
def actionInAvailable : JVal → Bool
  | .str s => AVAILABLE_TOOLS.contains s
  | _ => false

/-- `PlanStep` from `app/schemas/plan_schema.py`. -/
structure PlanStep where
  action : String
  params : List (String × JVal)
deriving Repr, DecidableEq

/-- `AgentPlan` from `app/schemas/plan_schema.py`.  Note the schema declares
only these three fields; a `needs_tools` key in the input dict is an extra
key that pydantic silently drops. -/
structure AgentPlan where
  intent : String
  steps : List PlanStep
  response_style : String
deriving Repr, DecidableEq

/-- Pydantic parse of one step mapping into `PlanStep`. -/
def parseStep : JVal → Except String PlanStep
  | .obj m =>
      match jLookup m "action", jLookup m "params" with
      | some (.str a), some (.obj p) => .ok ⟨a, p⟩
      | _, _ => .error "step does not match PlanStep schema"
  | _ => .error "step must be a mapping"

def parseSteps : List JVal → Except String (List PlanStep)
  | [] => .ok []
  | s :: rest => do
      let p ← parseStep s
      let ps ← parseSteps rest
      .ok (p :: ps)

/-- Pydantic construction `AgentPlan(**plan_dict)`: requires `intent`,
`steps` and `response_style` of the declared shapes, ignores extra keys. -/
def agentPlanOfDict (m : List (String × JVal)) : Except String AgentPlan :=
  match jLookup m "intent", jLookup m "steps", jLookup m "response_style" with
  | some (.str i), some (.arr l), some (.str rs) => do
      let ps ← parseSteps l
      .ok ⟨i, ps, rs⟩
  | _, _, _ => .error "plan does not match AgentPlan schema"

/-- `PlanValidator._create_fallback_plan`.  The `needs_tools=False`
argument passed in the source is dropped because `AgentPlan` declares no
such field. -/
def fallbackPlan : AgentPlan :=
  { intent := "Error in plan validation - using fallback"
    steps := []
    response_style := "professional" }

/-- The product-browsing keyword list of `PlanValidator.validate`. -/
def productKeywords : List String :=
  ["find", "show", "want", "looking", "clothing", "clothes", "fashion",
   "shirt", "dress", "top", "pants", "female", "male", "women", "men",
   "products", "items", "browse", "all of them", "all of their", "anything",
   "give me", "need", "help me", "can you", "could you", "shop", "shopping",
   "branded", "designer", "apparel", "wear", "garment", "outfit", "style",
   "trending", "popular", "recommend", "suggest", "see", "view", "display"]

/-- The size/availability keyword list of `PlanValidator.validate`. -/
def sizeKeywords : List String :=
  ["size", "sizes", "available sizes", "what sizes", "stock", "inventory",
   "available", "availability"]

def femaleKeywords : List String := ["female", "women", "woman", "ladies", "girl"]

def maleKeywords : List String := ["male", "men", "man", "guys", "boy"]

def hasProductKeywords (userLower : String) : Bool :=
  productKeywords.any (fun kw => pyContains userLower kw)

def hasSizeQuery (userLower : String) : Bool :=
  sizeKeywords.any (fun kw => pyContains userLower kw)

/-- Gender inference from gendered keywords (female list checked first). -/
def inferGender (userLower : String) : Option String :=
  if femaleKeywords.any (fun kw => pyContains userLower kw) then some "female"
  else if maleKeywords.any (fun kw => pyContains userLower kw) then some "male"
  else none

def inferCategory : Option String → String
  | some "female" => "Women\x27s Fashion"
  | some "male" => "Men\x27s Fashion"
  | _ => "Fashion"

/-- `any(isinstance(step, dict) and step.get("action") == a for step in steps)`. -/
def stepsHaveAction (steps : List JVal) (a : String) : Bool :=
  steps.any (fun s =>
    match s with
    | .obj m =>
        match jLookup m "action" with
        | some (.str x) => x = a
        | _ => false
    | _ => false)

/-- Default for a missing `needs_tools`:
`bool(plan_dict.get("steps") and len(plan_dict.get("steps", [])) > 0)`;
`none` models the `TypeError` crash when `steps` is a truthy unsized value. -/
def needsToolsDefault (m : List (String × JVal)) : Option Bool :=
  match jLookup m "steps" with
  | none => some false
  | some v =>
      if pyTruthy v then
        match pyLen v with
        | some n => some (decide (0 < n))
        | none => none
      else some false

/-- The `check_inventory` step synthesized by the size heuristic. -/
def inventoryStepDict : JVal :=
  .obj [("action", .str "check_inventory"), ("params", .obj [])]

/-- The `recommend_products` step synthesized by the product heuristic. -/
def recommendStepDict (category : String) (gender : Option String) : JVal :=
  .obj [("action", .str "recommend_products"),
        ("params", .obj (("category", .str category) ::
          (match gender with
           | some g => [("gender", .str g)]
           | none => [])))]

def autoAddedMsg : String :=
  "Product query detected but no recommend_products step found - auto-added"

def autoCorrectedMsg : String :=
  "Product query detected but needs_tools was False - auto-corrected"

/-- `PlanValidator._validate_step`. -/
def validateStep (index : Nat) (step : JVal) : List String :=
  match step with
  | .obj m =>
      match jLookup m "action" with
      | none => ["Step " ++ toString index ++ " missing required field: action"]
      | some act =>
          if actionInAvailable act then
            match jLookup m "params" with
            | none => ["Step " ++ toString index ++ " missing required field: params"]
            | some (.obj pm) =>
                let required := TOOL_PARAM_REQUIREMENTS (pyStr act)
                let missing := required.filter (fun r => !(jHasKey pm r))
                if missing = [] then []
                else ["Step " ++ toString index ++ " (action: " ++ pyStr act ++
                      ") missing required parameters: " ++ String.intercalate ", " missing]
            | some _ => ["Step " ++ toString index ++ " params must be a dictionary"]
          else
            ["Step " ++ toString index ++ " has invalid action \x27" ++ pyStr act ++
             "\x27. Available: " ++ String.intercalate ", " AVAILABLE_TOOLS_SORTED]
  | _ => ["Step " ++ toString index ++ " must be a dictionary"]

def stepErrorsFrom (i : Nat) : List JVal → List String
  | [] => []
  | s :: rest => validateStep i s ++ stepErrorsFrom (i + 1) rest

/-- Lines 132-139 of the validator: step-list validation. -/
def stepsValidationErrors (m : List (String × JVal)) : List String :=
  match jLookup m "steps" with
  | none => []
  | some (.arr l) => stepErrorsFrom 0 l
  | some _ => ["Steps must be a list"]

/-- The intent-enforcement heuristics of `PlanValidator.validate`
(lines 58-130), run only for a non-empty user message.  Returns the
mutated plan dict and the heuristic error messages; `none` models a
crash on a non-list `steps` value. -/
def heuristicBlock (m : List (String × JVal)) (userMessage : String) :
    Option (List (String × JVal) × List String) := do
  let userLower := pyLower userMessage
  let stepsVal := (jLookup m "steps").getD (.arr [])
  let stepsList ← pyIter stepsVal
  let hasRecommend := stepsHaveAction stepsList "recommend_products"
  let hasInv := stepsHaveAction stepsList "check_inventory"
  let (m1, stepsVal1) ←
    (if hasSizeQuery userLower && !hasInv then
      match stepsVal with
      | .arr l =>
          let l' := l ++ [inventoryStepDict]
          some (dictSet (dictSet m "steps" (.arr l')) "needs_tools" (.bool true), JVal.arr l')
      | _ => none
    else some (m, stepsVal))
  if hasProductKeywords userLower then
    let gender := inferGender userLower
    let category := inferCategory gender
    let (m2, errsAdd) ←
      (if !hasRecommend then
        let newSteps? : Option (List JVal) :=
          match stepsVal1 with
          | .arr l =>
              some (if l.isEmpty then [recommendStepDict category gender]
                    else recommendStepDict category gender :: l)
          | v =>
              match pyLen v with
              | some 0 => some [recommendStepDict category gender]
              | _ => none
        match newSteps? with
        | some ns =>
            some (dictSet (dictSet m1 "steps" (.arr ns)) "needs_tools" (.bool true),
                  [autoAddedMsg])
        | none => none
      else some (m1, []))
    let res :=
      if jLookup m2 "needs_tools" = some (.bool false) then
        (dictSet m2 "needs_tools" (.bool true),
         errsAdd ++ (if errsAdd.contains autoAddedMsg then [] else [autoCorrectedMsg]))
      else (m2, errsAdd)
    some res
  else
    some (m1, [])

/-- Structural checks, `needs_tools` defaulting, intent heuristics and step
validation of `PlanValidator.validate` (lines 43-139).  Returns the mutated
plan dict and the accumulated error list; `none` models a crash. -/
def validatePhase1 (m : List (String × JVal)) (userMessage : String) :
    Option (List (String × JVal) × List String) := do
  let errs0 : List String :=
    (if jHasKey m "intent" then [] else ["Missing required field: intent"]) ++
    (if jHasKey m "steps" then [] else ["Missing required field: steps"]) ++
    (if jHasKey m "response_style" then [] else ["Missing required field: response_style"])
  let m1 ←
    (if jHasKey m "needs_tools" then some m
     else (needsToolsDefault m).map (fun b => dictSet m "needs_tools" (.bool b)))
  let (m2, errs1) ←
    (if userMessage ≠ "" then heuristicBlock m1 userMessage else some (m1, []))
  some (m2, errs0 ++ errs1 ++ stepsValidationErrors m2)

/-- The result tuple of `PlanValidator.validate`, together with the plan
dict after its in-place mutation. -/
structure ValidateResult where
  is_valid : Bool
  plan : AgentPlan
  errors : List String
  was_fixed : Bool
  plan_dict : JVal
deriving Repr, DecidableEq

/-- `PlanValidator.validate` with an empty `original_response`, i.e. with
the governance branch disabled (this is exactly how the validator re-checks
a repaired plan).  `none` models a crash. -/
def validateCore (planDict : JVal) (userMessage : String) : Option ValidateResult :=
  match planDict with
  | .obj m => do
      let (m', errs) ← validatePhase1 m userMessage
      if errs = [] then
        match agentPlanOfDict m' with
        | .ok p => some ⟨true, p, [], false, .obj m'⟩
        | .error e => some ⟨false, fallbackPlan, ["Schema validation error: " ++ e], false, .obj m'⟩
      else
        some ⟨false, fallbackPlan, errs, false, .obj m'⟩
  | v => some ⟨false, fallbackPlan, ["Plan must be a dictionary"], false, v⟩

mutual

/-- `PlanRunner._resolve_params`: placeholder substitution, recursive over
nested mappings and lists. -/
def resolveParams (sid uid : String) (ctx : List (String × JVal)) :
    List (String × JVal) → List (String × JVal)
  | [] => []
  | (k, v) :: rest =>
      (k, resolveValue sid uid ctx k v) :: resolveParams sid uid ctx rest

def resolveValue (sid uid : String) (ctx : List (String × JVal))
    (key : String) : JVal → JVal
  | .str s =>
      if s = "extracted_from_context" ∨ s = "\x7b\x7bsession_id\x7d\x7d" ∨
         s = "\x7b\x7buser_id\x7d\x7d" then
        if key = "session_id" ∨ pyContains (pyLower key) "session" then .str sid
        else if key = "user_id" ∨ pyContains (pyLower key) "user" then .str uid
        else
          match jLookup ctx key with
          | some cv => cv
          | none =>
              if pyContains (pyLower key) "session" then .str sid
              else if pyContains (pyLower key) "user" then .str uid
              else .str s
      else .str s
  | .obj m => .obj (resolveParams sid uid ctx m)
  | .arr l => .arr (resolveList sid uid ctx l)
  | v => v

/-- The list branch of `_resolve_params`: a mapping item is resolved and
then replaced by `resolved.get("_", item)` — i.e. by the original item
unless it had a literal `"_"` key. -/
def resolveList (sid uid : String) (ctx : List (String × JVal)) :
    List JVal → List JVal
  | [] => []
  | item :: rest =>
      (match item with
       | .obj m => (jLookup (resolveParams sid uid ctx m) "_").getD (.obj m)
       | v => v) :: resolveList sid uid ctx rest

end

/-- Gender auto-injection for `recommend_products` (runner lines 151-159):
personalization record first, then `gender`/`user_gender` context keys. -/
def recommendGenderInject (resolved ctx : List (String × JVal)) :
    List (String × JVal) :=
  let fromCtx : List (String × JVal) :=
    match jLookup ctx "gender" with
    | some g => dictSet resolved "gender" g
    | none =>
        match jLookup ctx "user_gender" with
        | some g => dictSet resolved "gender" g
        | none => resolved
  match jLookup ctx "personalization" with
  | some (.obj pm) =>
      match jLookup pm "gender" with
      | some g => dictSet resolved "gender" g
      | none => fromCtx
  | _ => fromCtx

/-- Gender injection plus the allow-list filter for `recommend_products`
(runner lines 151-163). -/
def recommendAdjust (action : String) (resolved ctx : List (String × JVal)) :
    List (String × JVal) :=
  if action = "recommend_products" then
    let r1 := if jHasKey resolved "gender" then resolved
              else recommendGenderInject resolved ctx
    r1.filter (fun kv => kv.1 = "category" ∨ kv.1 = "price_range" ∨ kv.1 = "gender")
  else resolved

/-- A per-step execution record (the dict built by
`PlanRunner._execute_step`); `params = none` models the tool-not-found
record, which carries no `params` key; `result = null` models `None`. -/
structure StepResult where
  step : String
  success : Bool
  params : Option (List (String × JVal))
  result : JVal
  error : Option String
deriving Repr, DecidableEq

/-- A tool body: keyword parameters in, JSON result out, `.error` models a
raised exception carrying its message. -/
def ToolFn : Type := List (String × JVal) → Except String JVal

/-- Exact case-insensitive name match of one recommendation item list
(inner loop of runner lines 175-186). -/
def firstMatchByName (nameLower : String) : List JVal → Option JVal
  | [] => none
  | item :: rest =>
      match item with
      | .obj im =>
          if pyLower (pyStrip (pyStr ((jLookup im "name").getD (.str "")))) = nameLower
             && jHasKey im "product_id" then
            jLookup im "product_id"
          else firstMatchByName nameLower rest
      | _ => firstMatchByName nameLower rest

/-- Stage 1 of identifier inference: exact case-insensitive name match
against successful `recommend_products` results, most recent first. -/
def inferIdByName (nameLower : String) : List StepResult → Option JVal
  | [] => none
  | p :: rest =>
      if p.step = "recommend_products" && p.success then
        match p.result with
        | .arr products =>
            match firstMatchByName nameLower products with
            | some pid => some pid
            | none => inferIdByName nameLower rest
        | _ => inferIdByName nameLower rest
      else inferIdByName nameLower rest

/-- Stage 2: the first product of the most recent successful
`recommend_products` result whose first item is a mapping carrying a
`product_id` (runner lines 189-197). -/
def inferIdFirstRec : List StepResult → Option JVal
  | [] => none
  | p :: rest =>
      if p.step = "recommend_products" && p.success then
        match p.result with
        | .arr (first :: _) =>
            match first with
            | .obj fm =>
                if jHasKey fm "product_id" then jLookup fm "product_id"
                else inferIdFirstRec rest
            | _ => inferIdFirstRec rest
        | _ => inferIdFirstRec rest
      else inferIdFirstRec rest

def firstItemWithPid : List JVal → Option JVal
  | [] => none
  | item :: rest =>
      match item with
      | .obj im =>
          if jHasKey im "product_id" then jLookup im "product_id"
          else firstItemWithPid rest
      | _ => firstItemWithPid rest

/-- Stage 3: scan any previous list-shaped results for an item carrying a
`product_id` (runner lines 200-209). -/
def inferIdAnyList : List StepResult → Option JVal
  | [] => none
  | p :: rest =>
      match p.result with
      | .arr items =>
          match firstItemWithPid items with
          | some pid => some pid
          | none => inferIdAnyList rest
      | _ => inferIdAnyList rest

/-- Identifier inference for a `check_inventory` step lacking both `sku`
and `product_id` (runner lines 172-238): recommended-name match, first
recommended product, any list result, then the external products-table
lookup `db` keyed by the lowercased name (exact then `LIKE`; read errors
swallowed, so a failing lookup is `none`). -/
def inferredProductId (resolved : List (String × JVal))
    (prevRev : List StepResult) (db : String → Option String) : Option JVal :=
  let productName := (jLookup resolved "product_name").getD .null
  let step1 :=
    if pyTruthy productName then
      inferIdByName (pyLower (pyStrip (pyStr productName))) prevRev
    else none
  match step1 with
  | some pid => some pid
  | none =>
      match inferIdFirstRec prevRev with
      | some pid => some pid
      | none =>
          match inferIdAnyList prevRev with
          | some pid => some pid
          | none =>
              if pyTruthy productName then
                (db (pyLower (pyStrip (pyStr productName)))).map JVal.str
              else none

def isSlugChar (c : Char) : Bool :=
  (97 ≤ c.toNat && c.toNat ≤ 122) || (48 ≤ c.toNat && c.toNat ≤ 57)

def collapseDashes : List Char → List Char
  | [] => []
  | c :: rest =>
      match collapseDashes rest with
      | [] => [c]
      | d :: ds => if c = '-' && d = '-' then d :: ds else c :: d :: ds

/-- The local `slugify` of the runner:
`re.sub(r"[^a-z0-9]+", "-", name.lower()).strip("-")`. -/
def slugify (name : String) : String :=
  let mapped := (pyLower name).toList.map (fun c => if isSlugChar c then c else '-')
  let noLead := (collapseDashes mapped).dropWhile (fun c => c = '-')
  String.mk ((noLead.reverse.dropWhile (fun c => c = '-')).reverse)

/-- `provided_slug`: the provided id with a leading `prod-`/`prod_`
stripped (first matching prefix only). -/
def stripProdMarker (s : String) : String :=
  if strStartsWith s "prod-" then strDrop s 5
  else if strStartsWith s "prod_" then strDrop s 5
  else s

/-- All recommended items (mappings) from successful `recommend_products`
results, most recent step first (runner lines 260-265). -/
def collectRecommended : List StepResult → List (List (String × JVal))
  | [] => []
  | p :: rest =>
      (if p.step = "recommend_products" && p.success then
        match p.result with
        | .arr recs =>
            recs.filterMap (fun r =>
              match r with
              | .obj rm => some rm
              | _ => none)
        | _ => []
      else []) ++ collectRecommended rest

def recommendedIds (recs : List (List (String × JVal))) : List String :=
  recs.map (fun rm => pyLower (pyStrip (pyStr ((jLookup rm "product_id").getD (.str "")))))

/-- The slug-match loop of runner lines 271-285. -/
def slugMatchLoop (providedPid providedSlug : String) :
    List (List (String × JVal)) → Option JVal
  | [] => none
  | rm :: rest =>
      let name := pyStrip (pyStr ((jLookup rm "name").getD (.str "")))
      let pid := (jLookup rm "product_id").getD .null
      if !(pyTruthy pid) || name = "" then slugMatchLoop providedPid providedSlug rest
      else
        let nameSlug := slugify name
        if nameSlug = providedPid || nameSlug = providedSlug ||
           strStartsWith providedSlug nameSlug || strStartsWith nameSlug providedSlug then
          some pid
        else slugMatchLoop providedPid providedSlug rest

/-- Slug reconciliation of a supplied `product_id` against previously
recommended items (runner lines 250-288).  The final fallback of the
source (line 287) is dead code — `product_id` is still present — and so
reconciliation failure leaves the params unchanged. -/
def reconcileProductId (resolved : List (String × JVal))
    (prevRev : List StepResult) : List (String × JVal) :=
  match jLookup resolved "product_id" with
  | none => resolved
  | some pidVal =>
      let providedPid := pyLower (pyStrip (pyStr pidVal))
      let providedSlug := stripProdMarker providedPid
      let recommended := collectRecommended prevRev
      if !((recommendedIds recommended).contains providedPid) && !recommended.isEmpty then
        match slugMatchLoop providedPid providedSlug recommended with
        | some pid => dictSet resolved "product_id" pid
        | none => resolved
      else resolved

/-- The `check_inventory` parameter-fixup block of
`PlanRunner._execute_step` (runner lines 166-292): identifier inference
with an early per-step failure result, slug reconciliation, and the
allow-list filter.  `.error` carries the early failure record. -/
def checkInventoryAdjust (action : String) (resolved : List (String × JVal))
    (prevRev : List StepResult) (db : String → Option String) :
    Except StepResult (List (String × JVal)) :=
  if action = "check_inventory" then
    let afterInfer : Except StepResult (List (String × JVal)) :=
      if !(jHasKey resolved "sku") && !(jHasKey resolved "product_id") then
        match inferredProductId resolved prevRev db with
        | some pid => .ok (dictSet resolved "product_id" pid)
        | none =>
            .error { step := action, success := false, params := some resolved,
                     result := .null,
                     error := some "check_inventory requires product_id or sku; none could be inferred. Run recommend_products first." }
      else .ok resolved
    match afterInfer with
    | .error r => .error r
    | .ok r1 =>
        let r2 := reconcileProductId r1 prevRev
        .ok (r2.filter (fun kv => kv.1 = "sku" ∨ kv.1 = "product_id" ∨ kv.1 = "size"))
  else .ok resolved

/-- `PlanRunner._execute_step`: tool lookup, parameter resolution, the
per-tool adjustments, dispatch, and conversion of a raised exception into
a per-step failure record. -/
def executeStep (tools : String → Option ToolFn) (db : String → Option String)
    (step : PlanStep) (sid uid : String) (ctx : List (String × JVal))
    (previousSteps : List StepResult) : StepResult :=
  match tools step.action with
  | none =>
      { step := step.action, success := false, params := none, result := .null,
        error := some ("Tool \x27" ++ step.action ++ "\x27 not found") }
  | some f =>
      let resolved := resolveParams sid uid ctx step.params
      let r1 := recommendAdjust step.action resolved ctx
      match checkInventoryAdjust step.action r1 previousSteps.reverse db with
      | .error rec => rec
      | .ok finalParams =>
          match f finalParams with
          | .ok v =>
              { step := step.action, success := true, params := some finalParams,
                result := v, error := none }
          | .error e =>
              { step := step.action, success := false, params := some finalParams,
                result := .null, error := some e }

/-- The sequential step loop of `PlanRunner.execute` (lines 84-92): one
result per step, in declared order; a successful result is merged into the
running context under a `step_i_result` key before the next step runs. -/
def runSteps (tools : String → Option ToolFn) (db : String → Option String)
    (sid uid : String) : List PlanStep → Nat → List (String × JVal) →
    List StepResult → List StepResult × List (String × JVal)
  | [], _, ctx, _ => ([], ctx)
  | s :: rest, i, ctx, prev =>
      let r := executeStep tools db s sid uid ctx prev
      let ctx' := if r.success then dictSet ctx ("step_" ++ toString i ++ "_result") r.result
                  else ctx
      let (rs, ctxF) := runSteps tools db sid uid rest (i + 1) ctx' (prev ++ [r])
      (r :: rs, ctxF)

/-- The implementations behind `PlanRunner.TOOL_MAP`; the tool bodies are
external collaborators, so they are parameters of the embedding. -/
structure ToolImpls where
  get_session_context : ToolFn
  save_session_context : ToolFn
  get_user_profile : ToolFn
  update_user_name : ToolFn
  update_personalization : ToolFn
  get_orders : ToolFn
  check_inventory : ToolFn
  recommend_products : ToolFn
  apply_offers : ToolFn
  calculate_payment : ToolFn
  get_fulfillment_options : ToolFn
  log_execution_trace : ToolFn

/-- `PlanRunner.TOOL_MAP` as a name-to-callable lookup. -/
def TOOL_MAP (t : ToolImpls) : String → Option ToolFn := fun a =>
  if a = "get_session_context" then some t.get_session_context
  else if a = "save_session_context" then some t.save_session_context
  else if a = "get_user_profile" then some t.get_user_profile
  else if a = "update_user_name" then some t.update_user_name
  else if a = "update_personalization" then some t.update_personalization
  else if a = "get_orders" then some t.get_orders
  else if a = "check_inventory" then some t.check_inventory
  else if a = "recommend_products" then some t.recommend_products
  else if a = "apply_offers" then some t.apply_offers
  else if a = "calculate_payment" then some t.calculate_payment
  else if a = "get_fulfillment_options" then some t.get_fulfillment_options
  else if a = "log_execution_trace" then some t.log_execution_trace
  else none

def MAX_MESSAGE_HISTORY : Nat := 10

def MAX_TRACE_HISTORY : Nat := 5

/-- Python `l[-n:]`. -/
def lastN (n : Nat) (l : List α) : List α := l.drop (l.length - n)

/-- Sort key for `step_*` context keys: `int(x.split("_")[1])` when that
segment is all digits, else 0. -/
def stepKeyNum (k : String) : Nat :=
  ((pyToNat? ((pySplitOnChar '_' k).getD 1 ""))).getD 0

def insertStable (f : α → Nat) (x : α) : List α → List α
  | [] => [x]
  | y :: ys => if f y < f x then y :: insertStable f x ys else x :: y :: ys

/-- Stable insertion sort, modelling Python `sorted` with a key. -/
def sortStable (f : α → Nat) : List α → List α
  | [] => []
  | x :: xs => insertStable f x (sortStable f xs)

/-- `_bound_context` from `app/tools/session.py`: cap `message_history` at
the last `MAX_MESSAGE_HISTORY` entries, `trace_history` at the last
`MAX_TRACE_HISTORY`, and drop the oldest `step_*` keys beyond the cap. -/
def boundContext (ctx : List (String × JVal)) : List (String × JVal) :=
  let b1 :=
    match jLookup ctx "message_history" with
    | some (.arr l) => dictSet ctx "message_history" (.arr (lastN MAX_MESSAGE_HISTORY l))
    | _ => ctx
  let b2 :=
    match jLookup b1 "trace_history" with
    | some (.arr l) => dictSet b1 "trace_history" (.arr (lastN MAX_TRACE_HISTORY l))
    | _ => b1
  let stepKeys := (b2.map Prod.fst).filter (fun k => strStartsWith k "step_")
  if stepKeys.length > MAX_MESSAGE_HISTORY then
    let sortedKeys := sortStable stepKeyNum stepKeys
    (sortedKeys.take (sortedKeys.length - MAX_MESSAGE_HISTORY)).foldl dictRemove b2
  else b2

/-- `save_session_context` restricted to the per-user `sessions` mapping:
the session record is replaced by the bounded context (the JSON file I/O
around it is the external store). -/
def saveSessionContext (sessions : List (String × JVal)) (sessionId : String)
    (ctx : List (String × JVal)) : List (String × JVal) :=
  dictSet sessions sessionId (.obj (boundContext ctx))

/-- A raised Python exception: `valueError` models `ValueError` (the
`SemanticViolation` of the spec), `attrError` the incidental
`AttributeError`/`TypeError` crashes, caught separately by the caller. -/
inductive PyErr where
  | valueError : String → PyErr
  | attrError : String → PyErr
deriving Repr, DecidableEq

/-- Action collection of `GovernanceAgent`: from a `steps` value, the
`action` values of those entries that are mappings with an `action` key. -/
def collectActions : JVal → List JVal
  | .arr l =>
      l.filterMap (fun s =>
        match s with
        | .obj m => jLookup m "action"
        | _ => none)
  | _ => []

/-- `len(steps) if isinstance(steps, list) else 0`. -/
def stepCountOf : JVal → Nat
  | .arr l => l.length
  | _ => 0

/-- Python `set(a) == set(b)`. -/
def setEqJ (a b : List JVal) : Bool :=
  a.all (fun x => b.contains x) && b.all (fun x => a.contains x)

/-- `GovernanceAgent._validate_semantic_preservation`.  `.error` models a
raised exception; the `attrError` case is the `AttributeError` raised by
`.lower()` when an intent value is not a string. -/
def validateSemanticPreservation (fixedPlan : List (String × JVal))
    (originalIntent : JVal) (originalStepCount : Nat)
    (originalActions : List JVal) : Except PyErr Unit :=
  let fixedIntent := (jLookup fixedPlan "intent").getD (.str "")
  let fixedSteps := (jLookup fixedPlan "steps").getD (.arr [])
  let fixedStepCount := stepCountOf fixedSteps
  let fixedActions := collectActions fixedSteps
  if fixedStepCount ≠ originalStepCount then
    .error (.valueError ("Governance violated constraint: step count changed from " ++
      toString originalStepCount ++ " to " ++ toString fixedStepCount))
  else if !(setEqJ fixedActions originalActions) then
    .error (.valueError "Governance violated constraint: actions changed")
  else
    match originalIntent, fixedIntent with
    | .str oi, .str fi =>
        let normO := pyStrip (pyLower oi)
        let normF := pyStrip (pyLower fi)
        if normO ≠ "" ∧ normF ≠ "" then
          let ow := (pySplitWS normO).dedup
          let fw := (pySplitWS normF).dedup
          if ow.length > 2 ∧ ow.all (fun w => !(fw.contains w)) then
            .error (.valueError ("Governance violated constraint: intent changed significantly from \x27" ++
              oi ++ "\x27 to \x27" ++ fi ++ "\x27"))
          else .ok ()
        else .ok ()
    | _, _ => .error (.attrError "lower() called on a non-string intent")

/-- `GovernanceAgent.fix_plan`.  The external LLM call composed with
`_extract_json` is the oracle `govOut`: `.ok v` is a decoded repaired
value, `.error msg` the `ValueError` raised when no valid JSON could be
extracted from the LLM text. -/
def fixPlan (govOut : Except String JVal) (invalidPlan : List (String × JVal)) :
    Except PyErr JVal :=
  let originalIntent := (jLookup invalidPlan "intent").getD (.str "")
  let originalSteps := (jLookup invalidPlan "steps").getD (.arr [])
  let originalStepCount := stepCountOf originalSteps
  let originalActions := collectActions originalSteps
  match govOut with
  | .error e => .error (.valueError ("Governance agent failed to produce valid JSON: " ++ e))
  | .ok fixed =>
      match fixed with
      | .obj fm =>
          match validateSemanticPreservation fm originalIntent originalStepCount originalActions with
          | .ok _ => .ok fixed
          | .error pe => .error pe
      | _ => .error (.attrError "decoded repair is not a mapping")

/-- `PlanValidator.validate` in full: structural validation, heuristics,
the one governance repair attempt (re-validated with an empty
`original_response`, so repair recursion is disabled), and the fallback.
`none` models a crash. -/
def validate (govOut : Except String JVal) (planDict : JVal)
    (originalResponse : String) (userMessage : String) : Option ValidateResult :=
  match planDict with
  | .obj m => do
      let (m', errs) ← validatePhase1 m userMessage
      if errs = [] then
        match agentPlanOfDict m' with
        | .ok p => some ⟨true, p, [], false, .obj m'⟩
        | .error e => some ⟨false, fallbackPlan, ["Schema validation error: " ++ e], false, .obj m'⟩
      else
        if originalResponse ≠ "" then
          match fixPlan govOut m' with
          | .ok fixed => do
              let r ← validateCore fixed userMessage
              if r.is_valid then
                some ⟨true, r.plan, [], true, r.plan_dict⟩
              else
                some ⟨false, fallbackPlan,
                  errs ++ r.errors.map (fun e => "Governance fix failed: " ++ e),
                  false, .obj m'⟩
          | .error (.valueError e) =>
              some ⟨false, fallbackPlan,
                errs ++ ["Governance agent violated constraints: " ++ e], false, .obj m'⟩
          | .error (.attrError e) =>
              some ⟨false, fallbackPlan,
                errs ++ ["Governance agent error: " ++ e], false, .obj m'⟩
        else
          some ⟨false, fallbackPlan, errs, false, .obj m'⟩
  | v => some ⟨false, fallbackPlan, ["Plan must be a dictionary"], false, v⟩

theorem jLookup_dictSet_self (m : List (String × JVal)) (k : String) (v : JVal) :
    jLookup (dictSet m k v) k = some v := by
  induction m with
  | nil => simp [dictSet, jLookup]
  | cons hd tl ih =>
      by_cases h : hd.1 = k
      · simp [dictSet, h, jLookup]
      · simp [dictSet, h, jLookup, ih]

theorem jLookup_dictSet_ne (m : List (String × JVal)) (k k' : String) (v : JVal)
    (h : k' ≠ k) : jLookup (dictSet m k v) k' = jLookup m k' := by
  induction m with
  | nil => simp [dictSet, jLookup, Ne.symm h]
  | cons hd tl ih =>
      by_cases hh : hd.1 = k
      · simp [dictSet, hh, jLookup, Ne.symm h]
      · simp [dictSet, hh, jLookup, ih]

theorem jLookup_dictRemove_ne (m : List (String × JVal)) (k k' : String)
    (h : k ≠ k') : jLookup (dictRemove m k') k = jLookup m k := by
  induction m with
  | nil => simp [dictRemove]
  | cons hd tl ih =>
      by_cases hh : hd.1 = k'
      · simp [dictRemove, hh, jLookup, Ne.symm h]
      · by_cases hk : hd.1 = k
        · simp [dictRemove, hh, jLookup, hk, h]
        · simp [dictRemove, hh, jLookup, hk, ih]

theorem jLookup_foldl_dictRemove (ks : List String) (m : List (String × JVal))
    (k : String) (h : ∀ k' ∈ ks, k ≠ k') :
    jLookup (ks.foldl dictRemove m) k = jLookup m k := by
  induction ks generalizing m with
  | nil => rfl
  | cons hd tl ih =>
      have h1 : k ≠ hd := h hd (by simp)
      have h2 : ∀ k' ∈ tl, k ≠ k' := fun k' hk' => h k' (by simp [hk'])
      simp only [List.foldl_cons]
      rw [ih (dictRemove m hd) h2, jLookup_dictRemove_ne m k hd h1]

theorem mem_insertStable {f : α → Nat} {x y : α} {l : List α} :
    y ∈ insertStable f x l ↔ y = x ∨ y ∈ l := by
  induction l with
  | nil => simp [insertStable]
  | cons hd tl ih =>
      by_cases h : f hd < f x
      · simp only [insertStable, if_pos h, List.mem_cons, ih]
        tauto
      · simp only [insertStable, if_neg h, List.mem_cons]

theorem mem_sortStable {f : α → Nat} {y : α} {l : List α} :
    y ∈ sortStable f l ↔ y ∈ l := by
  induction l with
  | nil => simp [sortStable]
  | cons hd tl ih => simp [sortStable, mem_insertStable, ih]

/-- With an empty `original_response` the governance branch of `validate`
is skipped: re-validation of a repaired plan can never trigger a second
repair attempt. -/
theorem validate_empty_response (govOut : Except String JVal) (planDict : JVal)
    (userMessage : String) :
    validate govOut planDict "" userMessage = validateCore planDict userMessage := by
  cases planDict <;> simp only [validate, validateCore]
  case obj m =>
    cases h : validatePhase1 m userMessage with
    | none => rfl
    | some p => simp

/-- A demonstration tool that always succeeds. -/
def demoOkTool : ToolFn := fun _ => .ok (.str "ok")

/-- A demonstration tool that always raises. -/
def demoFailTool : ToolFn := fun _ => .error "boom"

def demoToolMap : String → Option ToolFn := fun a =>
  if a = "check_inventory" then some demoOkTool
  else if a = "get_user_profile" then some demoFailTool
  else if a = "log_execution_trace" then some demoOkTool
  else none

def demoDb : String → Option String := fun _ => none

/-- C1 counterexample: for the raw plan of the scenario
(`intent = "browse"`, empty steps, `needs_tools = false` — the spec calls
this flag `needs_side_effects`) and the user message
"find me female clothing", `validate` does NOT return a plan containing a
`recommend_products` step: because the heuristic injection is also
recorded as a validation error, validate (deterministically, with no
repair text) returns `is_valid = false` and the fallback plan with empty
steps. -/
theorem C1_counterexample :
    hasProductKeywords (pyLower "find me female clothing") = true ∧
    (validate (.error "no repair text")
        (.obj [("intent", .str "browse"), ("steps", .arr []), ("needs_tools", .bool false)])
        "" "find me female clothing").map
      (fun r => (r.is_valid, r.plan.steps)) = some (false, []) := by
  constructor
  · decide
  · decide

/-- C5: the size heuristic appends a `check_inventory` step with empty
parameters and forces `needs_tools` true (visible in the mutated plan
dict), but the plan is then REJECTED by the validator itself: the appended
step is missing the required `sku` parameter, so validation falls back —
contradicting both the claim and the inline source comment that the
executor would resolve the identifier later. -/
theorem C5_size_step_rejected :
    hasSizeQuery (pyLower "size") = true ∧
    validateCore
        (.obj [("intent", .str "check sizes"), ("steps", .arr []),
               ("response_style", .str "professional"), ("needs_tools", .bool false)])
        "size" =
      some { is_valid := false, plan := fallbackPlan,
             errors := ["Step 0 (action: check_inventory) missing required parameters: sku"],
             was_fixed := false,
             plan_dict := .obj [("intent", .str "check sizes"),
               ("steps", .arr [inventoryStepDict]),
               ("response_style", .str "professional"),
               ("needs_tools", .bool true)] } := by
  constructor
  · decide
  · decide

/-- C9 counterexample: on a structural failure with no repair attempted the
fallback plan is returned, but its intent is
"Error in plan validation - using fallback", not "validation failed". -/
theorem C9_counterexample :
    validateCore (.num 3) "" =
      some { is_valid := false, plan := fallbackPlan,
             errors := ["Plan must be a dictionary"], was_fixed := false,
             plan_dict := .num 3 } ∧
    fallbackPlan.intent ≠ "validation failed" := by
  constructor
  · decide
  · decide

/-- C7 counterexample: the original intent "go go go" has three
whitespace-separated tokens (more than two) and the repaired intent "stop"
shares none of them, yet repair is ACCEPTED: the source counts DISTINCT
tokens (`len(set(...)) > 2`), and here the distinct-token count is 1. -/
theorem C7_counterexample :
    (pySplitWS "go go go").length = 3 ∧
    ((pySplitWS "stop").all (fun w => !((pySplitWS "go go go").contains w))) = true ∧
    fixPlan (.ok (.obj [("intent", .str "stop"), ("steps", .arr [])]))
        [("intent", .str "go go go"), ("steps", .arr [])] =
      .ok (.obj [("intent", .str "stop"), ("steps", .arr [])]) := by
  refine ⟨by decide, by decide, rfl⟩

/-- The previous-results list of the C6 scenario: one successful
`recommend_products` step whose result contains the named product. -/
def recPrev : List StepResult :=
  [{ step := "recommend_products", success := true,
     params := some [("category", .str "Men\x27s Fashion")],
     result := .arr [.obj [("name", .str "Men\x27s Shirt"), ("product_id", .str "PROD-002")]],
     error := none }]

/-- C6: a `check_inventory` step whose only identifying parameter is
`product_name = "Men's Shirt"`, with a prior successful
`recommend_products` result containing that item, is dispatched with
`product_id = "PROD-002"` (exact case-insensitive name match) and with
`product_name` — and every other undeclared parameter — stripped by the
allow-list before the tool is invoked; the database oracle is never
consulted. -/
theorem C6_product_name_resolution (db : String → Option String) (f : ToolFn)
    (tools : String → Option ToolFn) (sid uid : String)
    (htool : tools "check_inventory" = some f) :
    checkInventoryAdjust "check_inventory"
        (resolveParams sid uid [] [("product_name", .str "Men\x27s Shirt")])
        recPrev.reverse db = .ok [("product_id", .str "PROD-002")] ∧
    (∀ v, f [("product_id", .str "PROD-002")] = .ok v →
      executeStep tools db ⟨"check_inventory", [("product_name", .str "Men\x27s Shirt")]⟩
          sid uid [] recPrev =
        { step := "check_inventory", success := true,
          params := some [("product_id", .str "PROD-002")], result := v, error := none }) ∧
    (∀ e, f [("product_id", .str "PROD-002")] = .error e →
      executeStep tools db ⟨"check_inventory", [("product_name", .str "Men\x27s Shirt")]⟩
          sid uid [] recPrev =
        { step := "check_inventory", success := false,
          params := some [("product_id", .str "PROD-002")], result := .null,
          error := some e }) := by
  have h1 : checkInventoryAdjust "check_inventory"
      (recommendAdjust "check_inventory"
        (resolveParams sid uid [] [("product_name", .str "Men\x27s Shirt")]) [])
      recPrev.reverse db = .ok [("product_id", .str "PROD-002")] := rfl
  refine ⟨rfl, ?_, ?_⟩
  · intro v hv
    simp only [executeStep, htool]
    rw [h1]
    simp [hv]
  · intro e he
    simp only [executeStep, htool]
    rw [h1]
    simp [he]

theorem C6_product_name_resolution_witness :
    checkInventoryAdjust "check_inventory"
        (resolveParams "s1" "u1" [] [("product_name", .str "Men\x27s Shirt")])
        recPrev.reverse demoDb = .ok [("product_id", .str "PROD-002")] ∧
    executeStep demoToolMap demoDb
        ⟨"check_inventory", [("product_name", .str "Men\x27s Shirt")]⟩ "s1" "u1" [] recPrev =
      { step := "check_inventory", success := true,
        params := some [("product_id", .str "PROD-002")], result := .str "ok", error := none } :=
  ⟨(C6_product_name_resolution demoDb demoOkTool demoToolMap "s1" "u1" rfl).1,
   (C6_product_name_resolution demoDb demoOkTool demoToolMap "s1" "u1" rfl).2.1 (.str "ok") rfl⟩

/-- C3: a `check_inventory` step carrying neither `sku` nor `product_id`
whose identifier cannot be inferred from prior recommendation results,
prior list-shaped results, or the store lookup, short-circuits to a
failure result with the explicit re-run-recommendation error; the record
does not depend on the inventory tool `f`, so the tool is never invoked
with a guessed identifier. -/
theorem C3_no_fabricated_identifier (tools : String → Option ToolFn) (f : ToolFn)
    (db : String → Option String) (params : List (String × JVal))
    (sid uid : String) (ctx : List (String × JVal)) (prev : List StepResult)
    (htool : tools "check_inventory" = some f)
    (hsku : jHasKey (resolveParams sid uid ctx params) "sku" = false)
    (hpid : jHasKey (resolveParams sid uid ctx params) "product_id" = false)
    (hinf : inferredProductId (resolveParams sid uid ctx params) prev.reverse db = none) :
    executeStep tools db ⟨"check_inventory", params⟩ sid uid ctx prev =
      { step := "check_inventory", success := false,
        params := some (resolveParams sid uid ctx params), result := .null,
        error := some "check_inventory requires product_id or sku; none could be inferred. Run recommend_products first." } := by
  have hadj : recommendAdjust "check_inventory" (resolveParams sid uid ctx params) ctx =
      resolveParams sid uid ctx params := by
    simp [recommendAdjust]
  simp only [executeStep, htool, hadj]
  simp [checkInventoryAdjust, hsku, hpid, hinf]

theorem C3_no_fabricated_identifier_witness :
    executeStep demoToolMap demoDb ⟨"check_inventory", []⟩ "s1" "u1" [] [] =
      { step := "check_inventory", success := false, params := some [], result := .null,
        error := some "check_inventory requires product_id or sku; none could be inferred. Run recommend_products first." } :=
  C3_no_fabricated_identifier demoToolMap demoOkTool demoDb [] "s1" "u1" [] [] rfl rfl rfl rfl

/-- Every branch of `_execute_step` produces a record naming the executed
action. -/
theorem executeStep_step_name (tools : String → Option ToolFn)
    (db : String → Option String) (step : PlanStep) (sid uid : String)
    (ctx : List (String × JVal)) (prev : List StepResult) :
    (executeStep tools db step sid uid ctx prev).step = step.action := by
  unfold executeStep
  cases htool : tools step.action with
  | none => rfl
  | some f =>
      simp only []
      cases hadj : checkInventoryAdjust step.action
          (recommendAdjust step.action (resolveParams sid uid ctx step.params) ctx)
          prev.reverse db with
      | error rec =>
          simp only []
          unfold checkInventoryAdjust at hadj
          split at hadj
          · split at hadj
            · split at hadj
              · exact absurd hadj (by simp)
              · exact (Except.error.inj hadj) ▸ rfl
            · exact absurd hadj (by simp)
          · exact absurd hadj (by simp)
      | ok finalParams =>
          cases hf : f finalParams with
          | ok v => simp [hf]
          | error e => simp [hf]

/-- C4: execution always produces exactly one result per plan step, in
plan order; and when the dispatched tool for a step raises, the executor
records a per-step failure result carrying the exception message, so no
single tool invocation can terminate the run. -/
theorem C4_failure_isolation :
    (∀ (tools : String → Option ToolFn) (db : String → Option String)
       (sid uid : String) (steps : List PlanStep) (i : Nat)
       (ctx : List (String × JVal)) (prev : List StepResult),
        (runSteps tools db sid uid steps i ctx prev).1.length = steps.length) ∧
    (∀ (tools : String → Option ToolFn) (db : String → Option String)
       (sid uid : String) (steps : List PlanStep) (i : Nat)
       (ctx : List (String × JVal)) (prev : List StepResult) (j : Nat),
        (((runSteps tools db sid uid steps i ctx prev).1.get? j).map StepResult.step) =
          ((steps.get? j).map PlanStep.action)) ∧
    (∀ (tools : String → Option ToolFn) (db : String → Option String) (f : ToolFn)
       (step : PlanStep) (sid uid : String) (ctx : List (String × JVal))
       (prev : List StepResult) (e : String) (finalParams : List (String × JVal)),
        tools step.action = some f →
        checkInventoryAdjust step.action
            (recommendAdjust step.action (resolveParams sid uid ctx step.params) ctx)
            prev.reverse db = .ok finalParams →
        f finalParams = .error e →
        executeStep tools db step sid uid ctx prev =
          { step := step.action, success := false, params := some finalParams,
            result := .null, error := some e }) := by
  refine ⟨?_, ?_, ?_⟩
  · intro tools db sid uid steps
    induction steps with
    | nil => intro i ctx prev; rfl
    | cons s rest ih =>
        intro i ctx prev
        simp only [runSteps, List.length_cons]
        rw [ih]
  · intro tools db sid uid steps
    induction steps with
    | nil => intro i ctx prev j; rfl
    | cons s rest ih =>
        intro i ctx prev j
        cases j with
        | zero => simp [runSteps, executeStep_step_name]
        | succ j' => simp only [runSteps, List.get?_cons_succ]; exact ih _ _ _ _
  · intro tools db f step sid uid ctx prev e finalParams htool hadj hf
    simp only [executeStep, htool]
    rw [hadj]
    simp [hf]

theorem C4_failure_isolation_witness :
    (runSteps demoToolMap demoDb "s1" "u1"
        [⟨"get_user_profile", []⟩, ⟨"log_execution_trace", []⟩] 0 [] []).1.length = 2 ∧
    executeStep demoToolMap demoDb ⟨"get_user_profile", []⟩ "s1" "u1" [] [] =
      { step := "get_user_profile", success := false, params := some [],
        result := .null, error := some "boom" } :=
  ⟨C4_failure_isolation.1 demoToolMap demoDb "s1" "u1"
      [⟨"get_user_profile", []⟩, ⟨"log_execution_trace", []⟩] 0 [] [],
   C4_failure_isolation.2.2 demoToolMap demoDb demoFailTool ⟨"get_user_profile", []⟩
      "s1" "u1" [] [] "boom" [] rfl rfl rfl⟩

theorem boundContext_lookup (ctx : List (String × JVal)) (ms ts : List JVal)
    (hm : jLookup ctx "message_history" = some (.arr ms))
    (ht : jLookup ctx "trace_history" = some (.arr ts)) :
    jLookup (boundContext ctx) "message_history" =
      some (.arr (lastN MAX_MESSAGE_HISTORY ms)) ∧
    jLookup (boundContext ctx) "trace_history" =
      some (.arr (lastN MAX_TRACE_HISTORY ts)) := by
  have hne1 : ("trace_history" : String) ≠ "message_history" := by decide
  simp only [boundContext, hm, jLookup_dictSet_ne _ _ _ _ hne1, ht]
  set b2 := dictSet (dictSet ctx "message_history" (JVal.arr (lastN MAX_MESSAGE_HISTORY ms)))
      "trace_history" (JVal.arr (lastN MAX_TRACE_HISTORY ts)) with hb2
  have hmsg : jLookup b2 "message_history" = some (.arr (lastN MAX_MESSAGE_HISTORY ms)) := by
    rw [hb2, jLookup_dictSet_ne _ _ _ _ (by decide), jLookup_dictSet_self]
  have htr : jLookup b2 "trace_history" = some (.arr (lastN MAX_TRACE_HISTORY ts)) := by
    rw [hb2, jLookup_dictSet_self]
  have hstep : ∀ k' ∈ ((b2.map Prod.fst).filter (fun k => strStartsWith k "step_")),
      strStartsWith k' "step_" = true := by
    intro k' hk'
    exact (List.mem_filter.mp hk').2
  constructor
  · split
    · rw [jLookup_foldl_dictRemove]
      · exact hmsg
      · intro k' hk'
        have hpre : strStartsWith k' "step_" = true := by
          have hmem := List.mem_of_mem_take hk'
          exact hstep k' (mem_sortStable.mp hmem)
        intro hkeq
        rw [← hkeq] at hpre
        exact absurd hpre (by decide)
    · exact hmsg
  · split
    · rw [jLookup_foldl_dictRemove]
      · exact htr
      · intro k' hk'
        have hpre : strStartsWith k' "step_" = true := by
          have hmem := List.mem_of_mem_take hk'
          exact hstep k' (mem_sortStable.mp hmem)
        intro hkeq
        rw [← hkeq] at hpre
        exact absurd hpre (by decide)
    · exact htr

/-- C8: every context written through the session store is bounded on
write: the stored `message_history` keeps at most the configured cap (10)
and `trace_history` at most its cap (5), and in each case exactly the most
recent entries are retained (the oldest are dropped first); since every
turn is persisted through this write path, the bound holds after any
number of turns. -/
theorem C8_bounded_history (sessions : List (String × JVal)) (sessionId : String)
    (ctx : List (String × JVal)) (ms ts : List JVal)
    (hm : jLookup ctx "message_history" = some (.arr ms))
    (ht : jLookup ctx "trace_history" = some (.arr ts)) :
    jLookup (saveSessionContext sessions sessionId ctx) sessionId =
      some (.obj (boundContext ctx)) ∧
    jLookup (boundContext ctx) "message_history" =
      some (.arr (lastN MAX_MESSAGE_HISTORY ms)) ∧
    jLookup (boundContext ctx) "trace_history" =
      some (.arr (lastN MAX_TRACE_HISTORY ts)) ∧
    (lastN MAX_MESSAGE_HISTORY ms).length ≤ MAX_MESSAGE_HISTORY ∧
    (lastN MAX_TRACE_HISTORY ts).length ≤ MAX_TRACE_HISTORY ∧
    ms.take (ms.length - MAX_MESSAGE_HISTORY) ++ lastN MAX_MESSAGE_HISTORY ms = ms ∧
    ts.take (ts.length - MAX_TRACE_HISTORY) ++ lastN MAX_TRACE_HISTORY ts = ts := by
  obtain ⟨h1, h2⟩ := boundContext_lookup ctx ms ts hm ht
  refine ⟨jLookup_dictSet_self _ _ _, h1, h2, ?_, ?_, ?_, ?_⟩
  · simp only [lastN, List.length_drop]; omega
  · simp only [lastN, List.length_drop]; omega
  · exact List.take_append_drop _ _
  · exact List.take_append_drop _ _

theorem C8_bounded_history_witness :
    jLookup (saveSessionContext [] "sess1"
        [("message_history", .arr ((List.range 12).map (fun i => .num i))),
         ("trace_history", .arr ((List.range 7).map (fun i => .num i)))]) "sess1" =
      some (.obj (boundContext
        [("message_history", .arr ((List.range 12).map (fun i => .num i))),
         ("trace_history", .arr ((List.range 7).map (fun i => .num i)))])) ∧
    (lastN MAX_MESSAGE_HISTORY ((List.range 12).map (fun i => (.num i : JVal)))).length ≤
      MAX_MESSAGE_HISTORY :=
  ⟨(C8_bounded_history [] "sess1" _ ((List.range 12).map (fun i => .num i))
      ((List.range 7).map (fun i => .num i)) (by decide) (by decide)).1,
   (C8_bounded_history [] "sess1"
      [("message_history", .arr ((List.range 12).map (fun i => .num i))),
       ("trace_history", .arr ((List.range 7).map (fun i => .num i)))]
      ((List.range 12).map (fun i => .num i))
      ((List.range 7).map (fun i => .num i)) (by decide) (by decide)).2.2.2.1⟩

/-- C9 (amended): whenever `validate` reports `is_valid = false` it returns
the fixed fallback plan, whose intent is
"Error in plan validation - using fallback" (not "validation failed"),
whose steps list is empty and whose response style is "professional"; the
`needs_tools = False` argument of the source is dropped because the
`AgentPlan` schema declares no such field. -/
theorem C9_fallback_on_invalid (govOut : Except String JVal) (planDict : JVal)
    (originalResponse userMessage : String) (r : ValidateResult)
    (h : validate govOut planDict originalResponse userMessage = some r)
    (hinv : r.is_valid = false) :
    r.plan = fallbackPlan ∧
    fallbackPlan = { intent := "Error in plan validation - using fallback",
                     steps := [], response_style := "professional" } := by
  refine ⟨?_, rfl⟩
  cases planDict <;> simp only [validate] at h <;>
    first
    | (cases Option.some.inj h; rfl)
    | skip
  case obj m =>
    cases hp : validatePhase1 m userMessage with
    | none => rw [hp] at h; simp at h
    | some p =>
        obtain ⟨m', errs⟩ := p
        rw [hp] at h
        simp only [Option.pure_def, Option.bind_eq_bind, Option.some_bind] at h
        split at h
        · split at h
          · cases Option.some.inj h; cases hinv
          · cases Option.some.inj h; rfl
        · split at h
          · split at h
            · rename_i fixed hfix
              cases hr : validateCore fixed userMessage with
              | none => rw [hr] at h; simp at h
              | some r2 =>
                  rw [hr] at h
                  simp only [Option.pure_def, Option.bind_eq_bind, Option.some_bind] at h
                  split at h
                  · cases Option.some.inj h; cases hinv
                  · cases Option.some.inj h; rfl
            · cases Option.some.inj h; rfl
            · cases Option.some.inj h; rfl
          · cases Option.some.inj h; rfl

theorem C9_fallback_on_invalid_witness :
    ({ is_valid := false, plan := fallbackPlan, errors := ["Plan must be a dictionary"],
       was_fixed := false, plan_dict := JVal.num 3 } : ValidateResult).plan = fallbackPlan ∧
    fallbackPlan = { intent := "Error in plan validation - using fallback",
                     steps := [], response_style := "professional" } :=
  C9_fallback_on_invalid (.error "no text") (.num 3) "" ""
    { is_valid := false, plan := fallbackPlan, errors := ["Plan must be a dictionary"],
      was_fixed := false, plan_dict := JVal.num 3 } rfl rfl

theorem semanticPreservation_ok_shape (fm : List (String × JVal)) (oi : JVal)
    (cnt : Nat) (acts : List JVal)
    (h : validateSemanticPreservation fm oi cnt acts = .ok ()) :
    stepCountOf ((jLookup fm "steps").getD (.arr [])) = cnt ∧
    setEqJ (collectActions ((jLookup fm "steps").getD (.arr []))) acts = true := by
  simp only [validateSemanticPreservation] at h
  split at h
  · exact absurd h (by simp)
  · split at h
    · exact absurd h (by simp)
    · rename_i h1 h2
      refine ⟨by omega, by simpa using h2⟩

theorem semanticPreservation_violation (fm : List (String × JVal)) (oi : JVal)
    (cnt : Nat) (acts : List JVal)
    (h : stepCountOf ((jLookup fm "steps").getD (.arr [])) ≠ cnt ∨
         setEqJ (collectActions ((jLookup fm "steps").getD (.arr []))) acts = false) :
    ∃ e, validateSemanticPreservation fm oi cnt acts = .error (.valueError e) := by
  simp only [validateSemanticPreservation]
  by_cases hc : stepCountOf ((jLookup fm "steps").getD (.arr [])) ≠ cnt
  · rw [if_pos hc]; exact ⟨_, rfl⟩
  · rcases h with h | h
    · exact absurd h hc
    · rw [if_neg hc, if_pos (by simp [h])]; exact ⟨_, rfl⟩

/-- C2: a repaired plan is accepted by `fix_plan` only if it preserves the
original step count and action-name set; any repaired plan violating
either constraint makes repair raise a `SemanticViolation` (ValueError);
on a raised repair the validator falls through to the fallback plan with
empty steps; and re-validation (empty `original_response`) can never
trigger a second repair attempt. -/
theorem C2_repair_preserves_cardinality :
    (∀ (govFixed : JVal) (invalidPlan : List (String × JVal)) (fixedPlan : JVal),
       fixPlan (.ok govFixed) invalidPlan = .ok fixedPlan →
       ∃ fm, fixedPlan = .obj fm ∧
         stepCountOf ((jLookup fm "steps").getD (.arr [])) =
           stepCountOf ((jLookup invalidPlan "steps").getD (.arr [])) ∧
         setEqJ (collectActions ((jLookup fm "steps").getD (.arr [])))
           (collectActions ((jLookup invalidPlan "steps").getD (.arr []))) = true) ∧
    (∀ (fm invalidPlan : List (String × JVal)),
       (stepCountOf ((jLookup fm "steps").getD (.arr [])) ≠
          stepCountOf ((jLookup invalidPlan "steps").getD (.arr [])) ∨
        setEqJ (collectActions ((jLookup fm "steps").getD (.arr [])))
          (collectActions ((jLookup invalidPlan "steps").getD (.arr []))) = false) →
       ∃ e, fixPlan (.ok (.obj fm)) invalidPlan = .error (.valueError e)) ∧
    (∀ (govOut : Except String JVal) (m m' : List (String × JVal)) (errs : List String)
       (originalResponse userMessage : String) (pe : PyErr),
       validatePhase1 m userMessage = some (m', errs) → errs ≠ [] →
       originalResponse ≠ "" → fixPlan govOut m' = .error pe →
       ∃ extra, validate govOut (.obj m) originalResponse userMessage =
         some ⟨false, fallbackPlan, errs ++ extra, false, .obj m'⟩ ∧
         fallbackPlan.steps = []) ∧
    (∀ (govOut : Except String JVal) (planDict : JVal) (userMessage : String),
       validate govOut planDict "" userMessage = validateCore planDict userMessage) := by
  refine ⟨?_, ?_, ?_, ?_⟩
  · intro govFixed invalidPlan fixedPlan hfix
    simp only [fixPlan] at hfix
    cases govFixed with
    | str s => simp at hfix
    | bool b => simp at hfix
    | num n => simp at hfix
    | arr l => simp at hfix
    | null => simp at hfix
    | obj fm =>
        cases hv : validateSemanticPreservation fm
            ((jLookup invalidPlan "intent").getD (.str ""))
            (stepCountOf ((jLookup invalidPlan "steps").getD (.arr [])))
            (collectActions ((jLookup invalidPlan "steps").getD (.arr []))) with
        | ok u =>
            cases u
            simp only [hv] at hfix
            obtain ⟨h1, h2⟩ := semanticPreservation_ok_shape _ _ _ _ hv
            exact ⟨fm, (Except.ok.inj hfix).symm, h1, h2⟩
        | error pe =>
            simp only [hv] at hfix
            exact absurd hfix (by simp)
  · intro fm invalidPlan h
    obtain ⟨e, he⟩ := semanticPreservation_violation fm
      ((jLookup invalidPlan "intent").getD (.str ""))
      (stepCountOf ((jLookup invalidPlan "steps").getD (.arr [])))
      (collectActions ((jLookup invalidPlan "steps").getD (.arr []))) h
    refine ⟨e, ?_⟩
    simp only [fixPlan, he]
  · intro govOut m m' errs originalResponse userMessage pe hp hne horesp hfixerr
    simp only [validate, hp, Option.pure_def, Option.bind_eq_bind, Option.some_bind]
    rw [if_neg hne, if_pos horesp, hfixerr]
    cases pe with
    | valueError e => exact ⟨["Governance agent violated constraints: " ++ e], rfl, rfl⟩
    | attrError e => exact ⟨["Governance agent error: " ++ e], rfl, rfl⟩
  · intro govOut planDict userMessage
    exact validate_empty_response govOut planDict userMessage

theorem C2_repair_preserves_cardinality_witness :
    (∃ fm, (JVal.obj [("intent", JVal.str "hi"), ("steps", JVal.arr [])]) = JVal.obj fm ∧
       stepCountOf ((jLookup fm "steps").getD (.arr [])) =
         stepCountOf ((jLookup [("intent", JVal.str "hi"), ("steps", JVal.arr [])] "steps").getD (.arr [])) ∧
       setEqJ (collectActions ((jLookup fm "steps").getD (.arr [])))
         (collectActions ((jLookup [("intent", JVal.str "hi"), ("steps", JVal.arr [])] "steps").getD (.arr []))) = true) ∧
    (∃ e, fixPlan
        (.ok (.obj [("steps", .arr [.obj [("action", .str "check_inventory"), ("params", .obj [])]])]))
        [("steps", .arr [])] = .error (.valueError e)) :=
  ⟨C2_repair_preserves_cardinality.1 (.obj [("intent", JVal.str "hi"), ("steps", JVal.arr [])])
      [("intent", JVal.str "hi"), ("steps", JVal.arr [])] _ rfl,
   C2_repair_preserves_cardinality.2.1
      [("steps", .arr [.obj [("action", .str "check_inventory"), ("params", .obj [])]])]
      [("steps", .arr [])] (Or.inl (by decide))⟩

/-- C7 (amended): the intent guardrail fires only when the original intent
has more than two DISTINCT lowercased tokens and the repaired intent is
non-empty after normalization: under those conditions zero token overlap
raises a `SemanticViolation`; and re-validation of an accepted repair uses
an empty `original_response`, so the repair service can never be invoked a
second time. -/
theorem C7_intent_guardrail :
    (∀ (fm : List (String × JVal)) (oi fi : String) (cnt : Nat) (acts : List JVal),
       jLookup fm "intent" = some (.str fi) →
       stepCountOf ((jLookup fm "steps").getD (.arr [])) = cnt →
       setEqJ (collectActions ((jLookup fm "steps").getD (.arr []))) acts = true →
       ((pySplitWS (pyStrip (pyLower oi))).dedup).length > 2 →
       pyStrip (pyLower fi) ≠ "" →
       ((pySplitWS (pyStrip (pyLower oi))).dedup.all
         (fun w => !(((pySplitWS (pyStrip (pyLower fi))).dedup).contains w))) = true →
       ∃ e, validateSemanticPreservation fm (.str oi) cnt acts = .error (.valueError e)) ∧
    (∀ (g₁ g₂ : Except String JVal) (d : JVal) (msg : String),
       validate g₁ d "" msg = validate g₂ d "" msg) := by
  constructor
  · intro fm oi fi cnt acts hintent hcnt hacts hdistinct hfne hdisj
    have hone : pyStrip (pyLower oi) ≠ "" := by
      intro hh
      rw [hh] at hdistinct
      exact absurd hdistinct (by decide)
    simp only [validateSemanticPreservation, hintent, Option.getD_some]
    rw [if_neg (by omega), if_neg (by simp [hacts])]
    simp only [ne_eq, hone, hfne, hdistinct, hdisj, not_false_eq_true, and_self, if_true,
      gt_iff_lt, true_and, if_pos]
    exact ⟨_, rfl⟩
  · intro g₁ g₂ d msg
    rw [validate_empty_response, validate_empty_response]

theorem C7_intent_guardrail_witness :
    ∃ e, validateSemanticPreservation [("intent", .str "totally different words")]
        (.str "buy red shoes") 0 [] = .error (.valueError e) :=
  C7_intent_guardrail.1 [("intent", .str "totally different words")]
    "buy red shoes" "totally different words" 0 []
    rfl (by decide) (by decide) (by decide) (by decide) (by decide)

theorem heuristicBlock_empty_steps_female (m1 : List (String × JVal)) (msg : String)
    (hsteps : jLookup m1 "steps" = some (.arr []))
    (hprod : hasProductKeywords (pyLower msg) = true)
    (hfem : femaleKeywords.any (fun kw => pyContains (pyLower msg) kw) = true) :
    ∃ m2 tail,
      heuristicBlock m1 msg = some (m2, [autoAddedMsg]) ∧
      jLookup m2 "steps" =
        some (.arr (recommendStepDict "Women\x27s Fashion" (some "female") :: tail)) ∧
      jLookup m2 "needs_tools" = some (.bool true) := by
  have hg : inferGender (pyLower msg) = some "female" := by
    simp only [inferGender, hfem, if_true]
  by_cases hsz : hasSizeQuery (pyLower msg) = true
  · refine ⟨dictSet (dictSet (dictSet (dictSet m1 "steps" (.arr [inventoryStepDict]))
        "needs_tools" (.bool true)) "steps"
        (.arr [recommendStepDict "Women\x27s Fashion" (some "female"), inventoryStepDict]))
        "needs_tools" (.bool true), [inventoryStepDict], ?_, ?_, ?_⟩
    · simp only [heuristicBlock, hsteps, Option.getD_some, pyIter, Option.pure_def,
        Option.bind_eq_bind, Option.some_bind, stepsHaveAction, List.any_nil,
        Bool.not_false, Bool.and_true, hsz, hprod, if_true, hg, inferCategory,
        List.isEmpty_cons, Bool.false_eq_true, if_false, jLookup_dictSet_self]
      simp
    · rw [jLookup_dictSet_ne _ _ _ _ (by decide), jLookup_dictSet_self]
    · rw [jLookup_dictSet_self]
  · have hsz' : hasSizeQuery (pyLower msg) = false := by
      cases h : hasSizeQuery (pyLower msg)
      · rfl
      · exact absurd h hsz
    refine ⟨dictSet (dictSet m1 "steps"
        (.arr [recommendStepDict "Women\x27s Fashion" (some "female")]))
        "needs_tools" (.bool true), [], ?_, ?_, ?_⟩
    · simp only [heuristicBlock, hsteps, Option.getD_some, pyIter, Option.pure_def,
        Option.bind_eq_bind, Option.some_bind, stepsHaveAction, List.any_nil,
        Bool.not_false, Bool.and_true, hsz', hprod, if_true, hg, inferCategory,
        Bool.false_and, Bool.false_eq_true, if_false, List.isEmpty_nil, if_true,
        jLookup_dictSet_self]
      simp
    · rw [jLookup_dictSet_ne _ _ _ _ (by decide), jLookup_dictSet_self]
    · rw [jLookup_dictSet_self]

/-- C1 (amended): for every raw plan dict whose `steps` value is the empty
list and every non-empty user message carrying a product keyword and a
female keyword, the validator heuristics do prepend to the working plan
dict a `recommend_products` step with category "Women's Fashion" and
gender "female" and force `needs_tools` (the spec's `needs_side_effects`)
true — but the injection is also recorded as a validation error, so
`validate` (with no repair text, hence deterministically) returns
`is_valid = false` and the fallback plan rather than a plan containing the
injected step. -/
theorem C1_validator_injection (m : List (String × JVal)) (msg : String)
    (govOut : Except String JVal)
    (hsteps : jLookup m "steps" = some (.arr []))
    (hmsg : msg ≠ "")
    (hprod : hasProductKeywords (pyLower msg) = true)
    (hfem : femaleKeywords.any (fun kw => pyContains (pyLower msg) kw) = true) :
    ∃ m' errs tail,
      validatePhase1 m msg = some (m', errs) ∧
      jLookup m' "steps" =
        some (.arr (recommendStepDict "Women\x27s Fashion" (some "female") :: tail)) ∧
      jLookup m' "needs_tools" = some (.bool true) ∧
      autoAddedMsg ∈ errs ∧
      validate govOut (.obj m) "" msg = some ⟨false, fallbackPlan, errs, false, .obj m'⟩ := by
  have hm1 : ∃ m1, (if jHasKey m "needs_tools" then some m
      else (needsToolsDefault m).map (fun b => dictSet m "needs_tools" (.bool b))) = some m1 ∧
      jLookup m1 "steps" = some (.arr []) := by
    by_cases hk : jHasKey m "needs_tools" = true
    · exact ⟨m, by rw [if_pos hk], hsteps⟩
    · refine ⟨dictSet m "needs_tools" (.bool false), ?_, ?_⟩
      · rw [if_neg (by simpa using hk)]
        simp [needsToolsDefault, hsteps, pyTruthy]
      · rw [jLookup_dictSet_ne _ _ _ _ (by decide)]; exact hsteps
  obtain ⟨m1, hm1eq, hm1steps⟩ := hm1
  obtain ⟨m2, tail, hblock, hm2steps, hm2needs⟩ :=
    heuristicBlock_empty_steps_female m1 msg hm1steps hprod hfem
  have hph : validatePhase1 m msg = some (m2,
      ((if jHasKey m "intent" then [] else ["Missing required field: intent"]) ++
       (if jHasKey m "steps" then [] else ["Missing required field: steps"]) ++
       (if jHasKey m "response_style" then [] else ["Missing required field: response_style"])) ++
      [autoAddedMsg] ++ stepsValidationErrors m2) := by
    simp only [validatePhase1, hm1eq, Option.pure_def, Option.bind_eq_bind, Option.some_bind,
      if_pos hmsg, hblock]
  refine ⟨m2, _, tail, hph, hm2steps, hm2needs, by simp, ?_⟩
  rw [validate_empty_response]
  simp only [validateCore, hph, Option.pure_def, Option.bind_eq_bind, Option.some_bind]
  rw [if_neg (by simp)]

theorem C1_validator_injection_witness :
    ∃ m' errs tail,
      validatePhase1 [("intent", .str "browse"), ("steps", .arr []), ("needs_tools", .bool false)]
        "find me female clothing" = some (m', errs) ∧
      jLookup m' "steps" =
        some (.arr (recommendStepDict "Women\x27s Fashion" (some "female") :: tail)) ∧
      jLookup m' "needs_tools" = some (.bool true) ∧
      autoAddedMsg ∈ errs ∧
      validate (.error "no repair text")
        (.obj [("intent", .str "browse"), ("steps", .arr []), ("needs_tools", .bool false)])
        "" "find me female clothing" = some ⟨false, fallbackPlan, errs, false, .obj m'⟩ :=
  C1_validator_injection
    [("intent", .str "browse"), ("steps", .arr []), ("needs_tools", .bool false)]
    "find me female clothing" (.error "no repair text")
    rfl (by decide) (by decide) (by decide)

theorem validateStep_empty_inv (i : Nat) (s : JVal) (h : validateStep i s = []) :
    ∃ m a, s = .obj m ∧ jLookup m "action" = some (.str a) ∧ a ∈ AVAILABLE_TOOLS := by
  cases s with
  | str v => simp [validateStep] at h
  | bool v => simp [validateStep] at h
  | num v => simp [validateStep] at h
  | arr v => simp [validateStep] at h
  | null => simp [validateStep] at h
  | obj m =>
      simp only [validateStep] at h
      cases hact : jLookup m "action" with
      | none => simp [hact] at h
      | some act =>
          by_cases hav : actionInAvailable act = true
          · cases act with
            | str a => exact ⟨m, a, rfl, hact, by simpa [actionInAvailable] using hav⟩
            | bool b => simp [actionInAvailable] at hav
            | num n => simp [actionInAvailable] at hav
            | arr l2 => simp [actionInAvailable] at hav
            | obj m2 => simp [actionInAvailable] at hav
            | null => simp [actionInAvailable] at hav
          · simp [hact, hav] at h

theorem parseSteps_actions (l : List JVal) (ps : List PlanStep) (i : Nat)
    (hp : parseSteps l = .ok ps) (hse : stepErrorsFrom i l = []) :
    ∀ p ∈ ps, p.action ∈ AVAILABLE_TOOLS := by
  induction l generalizing ps i with
  | nil =>
      simp only [parseSteps] at hp
      cases Except.ok.inj hp
      simp
  | cons s rest ih =>
      obtain ⟨h1, h2⟩ := List.append_eq_nil.mp (by simpa [stepErrorsFrom] using hse)
      simp only [parseSteps, bind, Except.bind] at hp
      cases hs : parseStep s with
      | error e => rw [hs] at hp; simp at hp
      | ok p0 =>
          cases hr : parseSteps rest with
          | error e => rw [hs, hr] at hp; simp at hp
          | ok ps' =>
              rw [hs, hr] at hp
              simp only [Except.ok.injEq] at hp
              subst hp
              intro p hpm
              rcases List.mem_cons.mp hpm with rfl | hpm'
              · obtain ⟨mm, a, rfl, hact, hmem⟩ := validateStep_empty_inv i s h1
                simp only [parseStep, hact] at hs
                cases hpp : jLookup mm "params" with
                | none => simp [hpp] at hs
                | some pv =>
                    rw [hpp] at hs
                    cases pv with
                    | str v => simp at hs
                    | bool v => simp at hs
                    | num v => simp at hs
                    | arr v => simp at hs
                    | null => simp at hs
                    | obj pm =>
                        simp only [Except.ok.injEq] at hs
                        subst hs
                        exact hmem
              · exact ih ps' (i + 1) hr h2 p hpm'

theorem agentPlanOfDict_ok_inv (m : List (String × JVal)) (p : AgentPlan)
    (h : agentPlanOfDict m = .ok p) :
    ∃ l, jLookup m "steps" = some (.arr l) ∧ parseSteps l = .ok p.steps := by
  unfold agentPlanOfDict at h
  split at h
  · rename_i i l rs hint hsteps hrs
    refine ⟨l, hsteps, ?_⟩
    cases hps : parseSteps l with
    | error e => rw [hps] at h; simp [bind, Except.bind] at h
    | ok ps =>
        rw [hps] at h
        simp only [bind, Except.bind, Except.ok.injEq] at h
        subst h
        rfl
  · simp at h

theorem validatePhase1_errors_suffix (m : List (String × JVal)) (msg : String)
    (m' : List (String × JVal)) (errs : List String)
    (h : validatePhase1 m msg = some (m', errs)) :
    ∃ e01, errs = e01 ++ stepsValidationErrors m' := by
  simp only [validatePhase1, Option.pure_def, Option.bind_eq_bind] at h
  cases hm1 : (if jHasKey m "needs_tools" then some m
      else (needsToolsDefault m).map (fun b => dictSet m "needs_tools" (.bool b))) with
  | none => rw [hm1] at h; simp at h
  | some m1 =>
      rw [hm1] at h
      simp only [Option.some_bind] at h
      cases hh : (if msg ≠ "" then heuristicBlock m1 msg else some (m1, [])) with
      | none => rw [hh] at h; simp at h
      | some p2 =>
          obtain ⟨m2, errs1⟩ := p2
          rw [hh] at h
          simp only [Option.some_bind, Option.some.injEq, Prod.mk.injEq] at h
          obtain ⟨hm', herrs⟩ := h
          subst hm'
          exact ⟨_ ++ errs1, by rw [← herrs, List.append_assoc]⟩

theorem validateCore_valid_actions (d : JVal) (msg : String) (r : ValidateResult)
    (h : validateCore d msg = some r) (hv : r.is_valid = true) :
    ∀ s ∈ r.plan.steps, s.action ∈ AVAILABLE_TOOLS := by
  cases d with
  | str v => simp only [validateCore] at h; cases Option.some.inj h; simp at hv
  | bool v => simp only [validateCore] at h; cases Option.some.inj h; simp at hv
  | num v => simp only [validateCore] at h; cases Option.some.inj h; simp at hv
  | arr v => simp only [validateCore] at h; cases Option.some.inj h; simp at hv
  | null => simp only [validateCore] at h; cases Option.some.inj h; simp at hv
  | obj m =>
      simp only [validateCore] at h
      cases hp : validatePhase1 m msg with
      | none => rw [hp] at h; simp at h
      | some pr =>
          obtain ⟨m', errs⟩ := pr
          rw [hp] at h
          simp only [Option.pure_def, Option.bind_eq_bind, Option.some_bind] at h
          split at h
          · rename_i he
            cases hap : agentPlanOfDict m' with
            | error e => rw [hap] at h; cases Option.some.inj h; simp at hv
            | ok p =>
                rw [hap] at h
                cases Option.some.inj h
                obtain ⟨l, hsl, hpl⟩ := agentPlanOfDict_ok_inv m' p hap
                obtain ⟨e01, herrs⟩ := validatePhase1_errors_suffix m msg m' errs hp
                have hsve : stepsValidationErrors m' = [] := by
                  rw [herrs] at he
                  exact (List.append_eq_nil.mp he).2
                have hse : stepErrorsFrom 0 l = [] := by
                  simpa [stepsValidationErrors, hsl] using hsve
                exact parseSteps_actions l p.steps 0 hpl hse
          · cases Option.some.inj h; simp at hv

theorem validate_valid_actions (govOut : Except String JVal) (d : JVal)
    (originalResponse msg : String) (r : ValidateResult)
    (h : validate govOut d originalResponse msg = some r) (hv : r.is_valid = true) :
    ∀ s ∈ r.plan.steps, s.action ∈ AVAILABLE_TOOLS := by
  cases d with
  | str v => simp only [validate] at h; cases Option.some.inj h; simp at hv
  | bool v => simp only [validate] at h; cases Option.some.inj h; simp at hv
  | num v => simp only [validate] at h; cases Option.some.inj h; simp at hv
  | arr v => simp only [validate] at h; cases Option.some.inj h; simp at hv
  | null => simp only [validate] at h; cases Option.some.inj h; simp at hv
  | obj m =>
      simp only [validate] at h
      cases hp : validatePhase1 m msg with
      | none => rw [hp] at h; simp at h
      | some pr =>
          obtain ⟨m', errs⟩ := pr
          rw [hp] at h
          simp only [Option.pure_def, Option.bind_eq_bind, Option.some_bind] at h
          split at h
          · rename_i he
            have hcore : validateCore (.obj m) msg = some r := by
              simp only [validateCore, hp, Option.pure_def, Option.bind_eq_bind,
                Option.some_bind]
              rw [if_pos he]
              exact h
            exact validateCore_valid_actions _ _ _ hcore hv
          · split at h
            · split at h
              · rename_i fixed hfix
                cases hr2 : validateCore fixed msg with
                | none => rw [hr2] at h; simp at h
                | some r2 =>
                    rw [hr2] at h
                    simp only [Option.some_bind] at h
                    split at h
                    · rename_i hv2
                      cases Option.some.inj h
                      intro s hs
                      exact validateCore_valid_actions _ _ _ hr2 hv2 s hs
                    · cases Option.some.inj h; simp at hv
              · cases Option.some.inj h; simp at hv
              · cases Option.some.inj h; simp at hv
            · cases Option.some.inj h; simp at hv

def demoImpls : ToolImpls :=
  ⟨demoOkTool, demoOkTool, demoOkTool, demoOkTool, demoOkTool, demoOkTool,
   demoOkTool, demoOkTool, demoOkTool, demoOkTool, demoOkTool, demoOkTool⟩

def demoValidDict : JVal :=
  .obj [("intent", .str "log something"),
        ("steps", .arr [.obj [("action", .str "log_execution_trace"),
                              ("params", .obj [("trace", .str "t")])]]),
        ("response_style", .str "calm"),
        ("needs_tools", .bool true)]

def demoValidResult : ValidateResult :=
  { is_valid := true,
    plan := { intent := "log something",
              steps := [⟨"log_execution_trace", [("trace", .str "t")]⟩],
              response_style := "calm" },
    errors := [], was_fixed := false, plan_dict := demoValidDict }

/-- C10: every action in the validator's static catalog `AVAILABLE_TOOLS`
has a callable in the executor's `TOOL_MAP`, so for any plan that passed
validation the per-step "Tool not found" branch is unreachable; the
converse fails — `get_orders` and `update_personalization` are in
`TOOL_MAP` but rejected by the validator. -/
theorem C10_tool_map_covers_catalog :
    (∀ a ∈ AVAILABLE_TOOLS, ∀ t : ToolImpls, (TOOL_MAP t a).isSome = true) ∧
    (∀ t : ToolImpls, (TOOL_MAP t "get_orders").isSome = true ∧
       (TOOL_MAP t "update_personalization").isSome = true) ∧
    ("get_orders" ∉ AVAILABLE_TOOLS ∧ "update_personalization" ∉ AVAILABLE_TOOLS) ∧
    (∀ (govOut : Except String JVal) (d : JVal) (originalResponse msg : String)
       (r : ValidateResult),
       validate govOut d originalResponse msg = some r → r.is_valid = true →
       ∀ s ∈ r.plan.steps, s.action ∈ AVAILABLE_TOOLS ∧
         ∀ t : ToolImpls, (TOOL_MAP t s.action).isSome = true) := by
  have hcover : ∀ a ∈ AVAILABLE_TOOLS, ∀ t : ToolImpls, (TOOL_MAP t a).isSome = true := by
    intro a ha t
    fin_cases ha <;> rfl
  refine ⟨hcover, fun t => ⟨rfl, rfl⟩, ⟨by decide, by decide⟩, ?_⟩
  intro govOut d originalResponse msg r h hv s hs
  have hmem := validate_valid_actions govOut d originalResponse msg r h hv s hs
  exact ⟨hmem, hcover s.action hmem⟩

theorem C10_tool_map_covers_catalog_witness :
    ((⟨"log_execution_trace", [("trace", JVal.str "t")]⟩ : PlanStep).action ∈ AVAILABLE_TOOLS ∧
      ∀ t : ToolImpls,
        (TOOL_MAP t (⟨"log_execution_trace", [("trace", JVal.str "t")]⟩ : PlanStep).action).isSome = true) ∧
    (TOOL_MAP demoImpls "recommend_products").isSome = true :=
  ⟨C10_tool_map_covers_catalog.2.2.2 (.error "nothing") demoValidDict "" "" demoValidResult
      (by decide) rfl ⟨"log_execution_trace", [("trace", JVal.str "t")]⟩ (by decide),
   C10_tool_map_covers_catalog.1 "recommend_products" (by decide) demoImpls⟩

end MAS



